import Mathlib

/-!
Shallow embedding of the grpcmock mock dispatch engine (Rust crate
`grpcmock`), covering the method-address parser (`src/method.rs`), the
mock registry and body matching (`src/mock.rs`), the wire framing and
status mapping helpers (`src/utils.rs`), and the request dispatch and
server construction logic (`src/server.rs`).

Modelling conventions:
- Rust `String` / `&str` values are `List Char`; `char::is_uppercase`
  is modelled by `Char.isUpper` (the developments below only exercise
  it on ASCII characters, where the two agree).
- Byte buffers (`Bytes`, `&[u8]`) are `List Nat`, each entry a byte
  value; the frame encoder produces header bytes reduced mod 256
  exactly where the Rust code truncates (`len as u32`).
- `HashMap<GrpcMethod, Vec<Mock>>` is modelled as an association list
  with unique keys; lookup scans for the first entry with an equal key,
  which agrees with the map on any list whose keys are unique (and all
  lists built by `MockSet.insert` from the empty set are such).
- Fallible Rust functions returning `Result<_, Error>` become
  `Except Error _`.  A Rust `panic!` / `.unwrap()` failure inside the
  async request handler is modelled by `Option.none`.
-/

deriving instance DecidableEq for Except

namespace Grpcmock

/-- The crate error type (`src/lib.rs`).  Only the `Invalid` variant is
produced by the code modelled here; the remaining variants wrap external
deserialization and I/O failures and carry their message. -/
inductive Error where
  | Invalid (msg : String)
  | YamlError (msg : String)
  | JsonError (msg : String)
  | IoError (msg : String)
deriving DecidableEq

/-- A gRPC method address (`GrpcMethod` in `src/method.rs`): a service
name and an unqualified method name. -/
structure GrpcMethod where
  service : List Char
  name : List Char
deriving DecidableEq

/-- Rust `str::split(sep)` on a character separator: always returns at
least one (possibly empty) segment; `"": [""]`, `"a.": ["a", ""]`. -/
def splitChar (sep : Char) : List Char → List (List Char)
  | [] => [[]]
  | c :: rest =>
    if c = sep then
      [] :: splitChar sep rest
    else
      match splitChar sep rest with
      | [] => [[c]]
      | s :: ss => (c :: s) :: ss

/-- Model of `chars().nth(0).is_some_and(|c| !c.is_uppercase())` from
`GrpcMethod::new`: true iff the string is nonempty and its first
character is not uppercase. -/
def headNotUpper (s : List Char) : Bool :=
  match s.head? with
  | some c => !c.isUpper
  | none => false

/-- Model of `GrpcMethod::new` (`src/method.rs` lines 13-30): validates that the
last dot-separated segment of `service` and the whole `name` do not
start with a non-uppercase character, then stores both fields verbatim. -/
def GrpcMethod.new (service name : List Char) : Except Error GrpcMethod :=
  let service_parts := splitChar '.' service
  if headNotUpper (service_parts.getLastD []) then
    .error (.Invalid ("service should start with uppercase"))
  else if headNotUpper name then
    .error (.Invalid ("name should start with uppercase"))
  else
    .ok ⟨service, name⟩

/-- Model of `GrpcMethod::path` (`src/method.rs` lines 43-45): formats the
address as `/<service>/<name>`. -/
def GrpcMethod.path (m : GrpcMethod) : List Char :=
  '/' :: m.service ++ '/' :: m.name

/-- Model of `impl FromStr for GrpcMethod` (`src/method.rs` lines 54-80): strips
one optional leading slash, splits on slashes, requires exactly two
segments, and delegates to `GrpcMethod.new`. -/
def GrpcMethod.fromStr (s : List Char) : Except Error GrpcMethod :=
  let s := if s.head? = some '/' then s.tail else s
  let parts := splitChar '/' s
  if parts.length ≠ 2 then
    .error (.Invalid ("path should be formatted `<service>/<name>`"))
  else
    GrpcMethod.new (parts.getD 0 []) (parts.getD 1 [])

/-- The spec-side naming predicate, stated from the spec's words for
comparison with `GrpcMethod.new`: a string "starts with an uppercase
letter" when it is nonempty and its first character is uppercase.  An
empty string does not start with an uppercase letter. -/
def claimStartsUpper : List Char → Bool
  | [] => false
  | c :: _ => c.isUpper

/-! ## Wire framing and status mapping (`src/utils.rs`) -/

/-- Big-endian bytes of a `u32` value (`BufMut::put_u32`): four bytes,
most significant first.  The argument is the already-truncated `u32`
value. -/
def u32be (n : Nat) : List Nat :=
  [n / 16777216 % 256, n / 65536 % 256, n / 256 % 256, n % 256]

/-- Model of `MessageExt::to_bytes` (`src/utils.rs` lines 50-66), with the prost
message abstracted by its encoded payload bytes: prefixes the payload
with one `0` byte (uncompressed) and the payload length as a 4-byte
big-endian `u32` (`len as u32` truncates mod 2^32). -/
def toBytes (payload : List Nat) : List Nat :=
  0 :: u32be (payload.length % 4294967296) ++ payload

/-- The gRPC status codes produced by `CodeExt::from_http`
(`tonic::Code` variants reachable from `src/utils.rs` lines 21-37). -/
inductive Code where
  | Ok
  | Unknown
  | NotFound
  | PermissionDenied
  | Unimplemented
  | Internal
  | Unavailable
  | Unauthenticated
deriving DecidableEq

/-- The numeric value of each `tonic::Code` variant (`code as i32`). -/
def Code.toI32 : Code → Nat
  | .Ok => 0
  | .Unknown => 2
  | .NotFound => 5
  | .PermissionDenied => 7
  | .Unimplemented => 12
  | .Internal => 13
  | .Unavailable => 14
  | .Unauthenticated => 16

/-- Model of `CodeExt::from_http` (`src/utils.rs` lines 21-37): the HTTP-status
to gRPC-code translation table.  HTTP status codes are their `u16`
values. -/
def Code.fromHttp (status : Nat) : Code :=
  if status = 400 ∨ status = 422 then .Internal
  else if status = 401 then .Unauthenticated
  else if status = 403 then .PermissionDenied
  else if status = 404 then .NotFound
  else if status = 501 then .Unimplemented
  else if status = 429 ∨ status = 502 ∨ status = 503 ∨ status = 504 then .Unavailable
  else if status = 200 then .Ok
  else .Unknown

/-! ## Mock bodies, fixtures and the registry (`src/mock.rs`) -/

/-- Model of `MockBody` (`src/mock.rs` lines 191-197): a request/response body in
protobuf-bytes form — empty, one full byte buffer, or a stream of byte
buffers. -/
inductive MockBody where
  | Empty
  | Full (data : List Nat)
  | Stream (data : List (List Nat))
deriving DecidableEq

/-- Model of `impl PartialEq<[u8]> for MockBody` (`src/mock.rs` lines 314-322):
`Empty` matches the empty buffer, `Full` matches byte-for-byte, and
`Stream` matches the concatenation of its chunks. -/
def MockBody.matchesBytes : MockBody → List Nat → Bool
  | .Empty, other => other.isEmpty
  | .Full bytes, other => bytes == other
  | .Stream data, other => data.flatten == other

/-- Model of `MockBody::to_boxed` (`src/mock.rs` lines 228-240) viewed as the
list of HTTP data frames the boxed body yields: `Empty` yields none,
`Full` yields its buffer once, `Stream` yields one frame per chunk. -/
def MockBody.toBoxed : MockBody → List (List Nat)
  | .Empty => []
  | .Full data => [data]
  | .Stream data => data

/-- Model of `MockRequest` (`src/mock.rs` lines 244-252): headers plus a body.
Headers are name/value pairs. -/
structure MockRequest where
  headers : List (String × String)
  body : MockBody
deriving DecidableEq

/-- Model of `MockRequest::new`: a request with the given body and default
(empty) headers. -/
def MockRequest.new (body : MockBody) : MockRequest :=
  ⟨[], body⟩

/-- Model of `MockResponse` (`src/mock.rs` lines 272-283): an HTTP status code
(`u16` value, default `200`), headers, a body, and an optional error
message. -/
structure MockResponse where
  code : Nat
  headers : List (String × String)
  body : MockBody
  error : Option String
deriving DecidableEq

/-- Model of `MockResponse::new`: a response with the given body, default status
`200 OK`, no headers and no error. -/
def MockResponse.new (body : MockBody) : MockResponse :=
  ⟨200, [], body, none⟩

/-- Model of `Mock` (`src/mock.rs` lines 84-88): a request/response fixture. -/
structure Mock where
  request : MockRequest
  response : MockResponse
deriving DecidableEq

/-- Model of `Mock::unary` (`src/mock.rs` lines 92-96): both bodies are single
framed messages.  Prost messages are abstracted by their encoded
payload bytes throughout. -/
def Mock.unary (request response : List Nat) : Mock :=
  ⟨MockRequest.new (.Full (toBytes request)), MockResponse.new (.Full (toBytes response))⟩

/-- Model of `Mock::client_streaming` (`src/mock.rs` lines 99-112): the request
body is a stream of framed messages. -/
def Mock.clientStreaming (request : List (List Nat)) (response : List Nat) : Mock :=
  ⟨MockRequest.new (.Stream (request.map toBytes)),
    MockResponse.new (.Full (toBytes response))⟩

/-- Model of `Mock::server_streaming` (`src/mock.rs` lines 115-128): the
response body is a stream of framed messages. -/
def Mock.serverStreaming (request : List Nat) (response : List (List Nat)) : Mock :=
  ⟨MockRequest.new (.Full (toBytes request)),
    MockResponse.new (.Stream (response.map toBytes))⟩

/-- Model of `Mock::bidi_streaming` (`src/mock.rs` lines 131-150): both bodies
are streams of framed messages. -/
def Mock.bidiStreaming (request response : List (List Nat)) : Mock :=
  ⟨MockRequest.new (.Stream (request.map toBytes)),
    MockResponse.new (.Stream (response.map toBytes))⟩

/-- Model of `Mock::with_code` (`src/mock.rs` lines 152-155). -/
def Mock.withCode (m : Mock) (code : Nat) : Mock :=
  { m with response := { m.response with code := code } }

/-- Model of `Mock::with_error` (`src/mock.rs` lines 157-160). -/
def Mock.withError (m : Mock) (error : String) : Mock :=
  { m with response := { m.response with error := some error } }

/-- Model of `Mock::with_headers` (`src/mock.rs` lines 162-165). -/
def Mock.withHeaders (m : Mock) (headers : List (String × String)) : Mock :=
  { m with response := { m.response with headers := headers } }

/-- The entry list backing a `MockSet`'s `HashMap<GrpcMethod, Vec<Mock>>`:
lookup returns the first entry with an equal key. -/
def getMocks : List (GrpcMethod × List Mock) → GrpcMethod → Option (List Mock)
  | [], _ => none
  | (k, v) :: rest, m => if k = m then some v else getMocks rest m

/-- Model of `hash_map::Entry`-style insertion: append to the existing entry's
vector (`Occupied → push`), or add a fresh one-element entry
(`Vacant → vec![mock]`). -/
def insertMock : List (GrpcMethod × List Mock) → GrpcMethod → Mock → List (GrpcMethod × List Mock)
  | [], m, mock => [(m, [mock])]
  | (k, v) :: rest, m, mock =>
    if k = m then (k, v ++ [mock]) :: rest else (k, v) :: insertMock rest m mock

/-- Model of `MockSet` (`src/mock.rs` line 23): a map from method address to the
ordered list of its fixtures, modelled as an association list with
unique keys. -/
structure MockSet where
  entries : List (GrpcMethod × List Mock)
deriving DecidableEq

/-- Model of `MockSet::new`. -/
def MockSet.new : MockSet := ⟨[]⟩

/-- Model of `HashMap::get` on the modelled entry list. -/
def MockSet.get (s : MockSet) (method : GrpcMethod) : Option (List Mock) :=
  getMocks s.entries method

/-- Model of `MockSet::insert` (`src/mock.rs` lines 50-59). -/
def MockSet.insert (s : MockSet) (method : GrpcMethod) (mock : Mock) : MockSet :=
  ⟨insertMock s.entries method mock⟩

/-- Model of `MockSet::find` (`src/mock.rs` lines 62-67): look up the method's
fixture list and return the first fixture whose request body matches
the given bytes. -/
def MockSet.find (s : MockSet) (method : GrpcMethod) (body : List Nat) : Option Mock :=
  (s.get method).bind fun mocks =>
    mocks.find? fun mock => mock.request.body.matchesBytes body

/-! ## Dispatch engine and server lifecycle (`src/server.rs`) -/

/-- A synthesized gRPC-over-HTTP response (`http::Response<BoxBody>` as
built by `grpc_response`): transport-level status line, header list in
insertion order, and the list of body data frames. -/
structure GrpcResponse where
  httpStatus : Nat
  headers : List (String × String)
  body : List (List Nat)
deriving DecidableEq

/-- Model of `grpc_response` (`src/server.rs` lines 130-139): status `200`, a
`content-type: application/grpc` header, a `grpc-status` header with the
code's numeric value, a `grpc-message` header exactly when an error
message is present, and the given body. -/
def grpcResponse (code : Code) (body : List (List Nat)) (error : Option String) : GrpcResponse :=
  { httpStatus := 200
    headers :=
      [("content-type", "application/grpc"), ("grpc-status", toString code.toI32)] ++
        (match error with
         | some e => [("grpc-message", e)]
         | none => [])
    body := body }

/-- Model of `Body::collect(..).to_bytes()`: the incoming request's HTTP data
frames concatenated into one flat byte buffer. -/
def collectBody (frames : List (List Nat)) : List Nat :=
  frames.flatten

/-- The state of a constructed `MockServer` (`src/server.rs` lines
33-38): declared service name, bound port, and the shared mock set. -/
structure MockServerModel where
  name : List Char
  port : Nat
  state : MockSet
deriving DecidableEq

/-- Model of `MockServer::new` (`src/server.rs` lines 42-56), with the ephemeral
port chosen by `find_available_port` supplied as the `port` argument.
The second component records whether control reached the port
allocation (and hence the bind probe): the service-mismatch check comes
first and returns early, so on mismatch no port is probed or bound. -/
def MockServer.new (name : List Char) (mocks : MockSet) (port : Nat) :
    Except Error MockServerModel × Bool :=
  if mocks.entries.any fun e => e.1.service ≠ name then
    (.error (.Invalid ("all mocks must be for `" ++ String.mk name ++ "` service")), false)
  else
    (.ok ⟨name, port, mocks⟩, true)

/-- Model of `MockServer::handle` (`src/server.rs` lines 89-121).  The incoming
request is its URI path together with the result of reading its body
frames (`Except Unit _`, where `.error` stands for a failed body read).
`Option.none` models a panic of the handler task: the source unwraps
both the path parse and the body collection. -/
def MockServer.handle (srv : MockServerModel) (path : List Char)
    (bodyRead : Except Unit (List (List Nat))) : Option GrpcResponse :=
  match GrpcMethod.fromStr path with
  | .error _ => none
  | .ok method =>
    match bodyRead with
    | .error _ => none
    | .ok frames =>
      let body := collectBody frames
      match srv.state.find method body with
      | some mock =>
        some (grpcResponse (Code.fromHttp mock.response.code)
          mock.response.body.toBoxed mock.response.error)
      | none =>
        some (grpcResponse .NotFound [] none)

/-! ## General lemmas -/

/-- Lemma: `List.find?` returns `some a` exactly when the list decomposes as a
prefix of non-matching elements followed by `a`, which matches. -/
theorem find?_eq_some_split {α : Type} (p : α → Bool) (l : List α) (a : α) :
    l.find? p = some a ↔
      ∃ pre post, l = pre ++ a :: post ∧ p a = true ∧ ∀ x ∈ pre, p x = false := by
  induction l with
  | nil =>
    simp only [List.find?_nil]
    constructor
    · intro h; cases h
    · rintro ⟨pre, post, h, -, -⟩
      exact absurd h (by simp)
  | cons x xs ih =>
    by_cases hx : p x = true
    · rw [List.find?_cons_of_pos _ hx]
      constructor
      · rintro ⟨rfl⟩
        exact ⟨[], xs, rfl, hx, by simp⟩
      · rintro ⟨pre, post, heq, ha, hpre⟩
        match pre, heq with
        | [], heq => cases heq; rfl
        | y :: pre', heq =>
          cases heq
          exact absurd hx (by simp [hpre x (by simp)])
    · have hx' : p x = false := by simpa using hx
      rw [List.find?_cons_of_neg _ (by simp [hx'])]
      rw [ih]
      constructor
      · rintro ⟨pre, post, rfl, ha, hpre⟩
        refine ⟨x :: pre, post, rfl, ha, ?_⟩
        intro y hy
        rcases List.mem_cons.mp hy with rfl | hy
        · exact hx'
        · exact hpre y hy
      · rintro ⟨pre, post, heq, ha, hpre⟩
        match pre, heq with
        | [], heq =>
          cases heq
          exact absurd ha (by simp [hx'])
        | y :: pre', heq =>
          cases heq
          exact ⟨pre', post, rfl, ha, fun z hz => hpre z (by simp [hz])⟩

/-- Looking up the inserted key after `insertMock` yields the old list
(empty when the key was absent) with the new mock appended. -/
theorem getMocks_insertMock_self (es : List (GrpcMethod × List Mock))
    (a : GrpcMethod) (mock : Mock) :
    getMocks (insertMock es a mock) a = some ((getMocks es a).getD [] ++ [mock]) := by
  induction es with
  | nil => simp [insertMock, getMocks]
  | cons e rest ih =>
    obtain ⟨k, v⟩ := e
    by_cases hk : k = a
    · subst hk
      simp [insertMock, getMocks]
    · simp [insertMock, getMocks, hk, ih]

/-- Lemma: `insertMock` leaves every other key's list unchanged. -/
theorem getMocks_insertMock_ne (es : List (GrpcMethod × List Mock))
    (a b : GrpcMethod) (mock : Mock) (h : b ≠ a) :
    getMocks (insertMock es a mock) b = getMocks es b := by
  induction es with
  | nil =>
    simp only [insertMock, getMocks]
    rw [if_neg (Ne.symm h)]
  | cons e rest ih =>
    obtain ⟨k, v⟩ := e
    by_cases hk : k = a
    · subst hk
      simp only [insertMock, if_pos rfl, getMocks]
      rw [if_neg (Ne.symm h), if_neg (Ne.symm h)]
    · by_cases hkb : k = b
      · subst hkb
        simp [insertMock, getMocks, hk]
      · simp [insertMock, getMocks, hk, hkb, ih]

/-! ## Claim theorems -/

/-- C1: `MockSet.find` scans the fixture list registered under the
method address in insertion order and returns the first fixture whose
request body matches the request bytes; it returns `none` when the
address is unregistered or nothing matches; matching ignores headers;
`insert` appends at the end of the address's list, and when two
matching fixtures are inserted under the same address the
first-inserted one is returned. -/
theorem C1_find_first_match (s : MockSet) (a : GrpcMethod) (b : List Nat) :
    (s.get a = none → s.find a b = none) ∧
    (∀ l, s.get a = some l →
      (s.find a b = none ↔ ∀ m ∈ l, m.request.body.matchesBytes b = false)) ∧
    (∀ m, s.find a b = some m ↔
      ∃ l pre post, s.get a = some l ∧ l = pre ++ m :: post ∧
        m.request.body.matchesBytes b = true ∧
        ∀ m' ∈ pre, m'.request.body.matchesBytes b = false) ∧
    (∀ (hs hs' : List (String × String)) (bd : MockBody) (rsp rsp' : MockResponse),
      (Mock.mk ⟨hs, bd⟩ rsp).request.body.matchesBytes b
        = (Mock.mk ⟨hs', bd⟩ rsp').request.body.matchesBytes b) ∧
    (∀ mock, (s.insert a mock).get a = some ((s.get a).getD [] ++ [mock])) ∧
    (∀ m1 m2, m1.request.body.matchesBytes b = true →
      m2.request.body.matchesBytes b = true →
      ((MockSet.new.insert a m1).insert a m2).find a b = some m1) := by
  refine ⟨?_, ?_, ?_, ?_, ?_, ?_⟩
  · intro h
    simp [MockSet.find, h]
  · intro l hl
    simp only [MockSet.find, hl, Option.some_bind]
    rw [List.find?_eq_none]
    constructor
    · intro h m hm
      simpa using h m hm
    · intro h m hm
      simp [h m hm]
  · intro m
    constructor
    · intro h
      simp only [MockSet.find] at h
      obtain ⟨l, hl, hfind⟩ := Option.bind_eq_some.mp h
      obtain ⟨pre, post, rfl, hm, hpre⟩ := (find?_eq_some_split _ _ _).mp hfind
      exact ⟨_, pre, post, hl, rfl, hm, hpre⟩
    · rintro ⟨l, pre, post, hl, rfl, hm, hpre⟩
      simp only [MockSet.find, hl, Option.some_bind]
      exact (find?_eq_some_split _ _ _).mpr ⟨pre, post, rfl, hm, hpre⟩
  · intro hs hs' bd rsp rsp'
    rfl
  · intro mock
    exact getMocks_insertMock_self s.entries a mock
  · intro m1 m2 h1 h2
    simp only [MockSet.find, MockSet.get, MockSet.insert, MockSet.new, insertMock,
      if_pos rfl, getMocks, if_true, Option.some_bind, List.singleton_append]
    exact List.find?_cons_of_pos _ h1

/-- C1 witness: at a concrete registry with two fixtures that both
match the empty request bytes, `find` returns the first-inserted one. -/
theorem C1_find_first_match_witness :
    ((MockSet.new.insert ⟨[], []⟩ (Mock.mk ⟨[], .Empty⟩ (MockResponse.new .Empty))).insert
        ⟨[], []⟩ (Mock.mk ⟨[], .Full []⟩ (MockResponse.new .Empty))).find ⟨[], []⟩ []
      = some (Mock.mk ⟨[], .Empty⟩ (MockResponse.new .Empty)) :=
  (C1_find_first_match MockSet.new ⟨[], []⟩ []).2.2.2.2.2 _ _ (by decide) (by decide)

/-- C2: matching a `Stream` fixture depends only on the concatenation
of its chunks and of the incoming frames, never on frame boundaries:
the matching decision against collected frames equals comparing the two
concatenations, and the dispatch engine's whole answer is unchanged
under any refactoring of the incoming frame boundaries that preserves
the concatenated bytes. -/
theorem C2_stream_matching_ignores_frame_shape :
    (∀ (chunks frames : List (List Nat)),
      (MockBody.Stream chunks).matchesBytes (collectBody frames)
        = (chunks.flatten == frames.flatten)) ∧
    (∀ (srv : MockServerModel) (path : List Char) (f1 f2 : List (List Nat)),
      f1.flatten = f2.flatten →
      MockServer.handle srv path (.ok f1) = MockServer.handle srv path (.ok f2)) := by
  constructor
  · intro chunks frames
    rfl
  · intro srv path f1 f2 h
    simp only [MockServer.handle, collectBody, h]

/-- C2 witness: a `Stream` fixture with chunks `"a"`, `"b"` matches the
bytes sent as two frames and as one frame equally, and the engine
returns the same response for both framings. -/
theorem C2_stream_matching_ignores_frame_shape_witness :
    (MockBody.Stream [[97], [98]]).matchesBytes (collectBody [[97], [98]]) = true ∧
    (MockBody.Stream [[97], [98]]).matchesBytes (collectBody [[97, 98]]) = true ∧
    MockServer.handle ⟨[], 0, MockSet.new⟩ [] (.ok [[97], [98]])
      = MockServer.handle ⟨[], 0, MockSet.new⟩ [] (.ok [[97, 98]]) := by
  refine ⟨by decide, by decide, ?_⟩
  exact C2_stream_matching_ignores_frame_shape.2 _ [] [[97], [98]] [[97, 98]] (by decide)

/-- C10: body-to-bytes matching is total over the three body variants
(`Empty` matches exactly the empty byte sequence, `Full` compares
byte-for-byte, `Stream` compares the chunk concatenation); `Empty` and
`Full []` decide matches identically, so fixtures differing only in
that choice of request body are indistinguishable to `find` (same
match/no-match outcome and same returned response at every position). -/
theorem C10_empty_body_matching :
    (∀ b : List Nat, MockBody.Empty.matchesBytes b = true ↔ b = []) ∧
    (∀ (bs b : List Nat), (MockBody.Full bs).matchesBytes b = (bs == b)) ∧
    (∀ (ds : List (List Nat)) (b : List Nat),
      (MockBody.Stream ds).matchesBytes b = (ds.flatten == b)) ∧
    (∀ b : List Nat, (MockBody.Full []).matchesBytes b = MockBody.Empty.matchesBytes b) ∧
    (∀ (a : GrpcMethod) (hs : List (String × String)) (rsp : MockResponse)
        (rest : List Mock) (b : List Nat),
      (MockSet.find ⟨[(a, ⟨⟨hs, .Empty⟩, rsp⟩ :: rest)]⟩ a b).map Mock.response
        = (MockSet.find ⟨[(a, ⟨⟨hs, .Full []⟩, rsp⟩ :: rest)]⟩ a b).map Mock.response ∧
      (MockSet.find ⟨[(a, ⟨⟨hs, .Empty⟩, rsp⟩ :: rest)]⟩ a b).isSome
        = (MockSet.find ⟨[(a, ⟨⟨hs, .Full []⟩, rsp⟩ :: rest)]⟩ a b).isSome) := by
  refine ⟨?_, ?_, ?_, ?_, ?_⟩
  · intro b
    simp [MockBody.matchesBytes, List.isEmpty_iff]
  · intro bs b
    rfl
  · intro ds b
    rfl
  · intro b
    cases b <;> rfl
  · intro a hs rsp rest b
    have hbody : ∀ m : Mock, m.request.body.matchesBytes b = m.request.body.matchesBytes b := fun _ => rfl
    cases b with
    | nil =>
      constructor <;>
        simp [MockSet.find, MockSet.get, getMocks, MockBody.matchesBytes,
          List.find?_cons_of_pos]
    | cons x xs =>
      have h1 : (MockBody.Empty).matchesBytes (x :: xs) = false := rfl
      have h2 : (MockBody.Full []).matchesBytes (x :: xs) = false := rfl
      constructor <;>
        simp [MockSet.find, MockSet.get, getMocks, h1, h2,
          List.find?_cons_of_neg, MockBody.matchesBytes]

/-- Splitting a string that does not contain the separator yields the
whole string as the single segment. -/
theorem splitChar_no_sep (sep : Char) (s : List Char) (h : sep ∉ s) :
    splitChar sep s = [s] := by
  induction s with
  | nil => rfl
  | cons c cs ih =>
    have hc : ¬c = sep := fun hh => h (hh ▸ List.mem_cons_self c cs)
    have hcs : sep ∉ cs := fun hh => h (List.mem_cons_of_mem c hh)
    simp only [splitChar, if_neg hc, ih hcs]

/-- Splitting `s ++ sep :: rest` when `s` is separator-free peels off
`s` as the first segment. -/
theorem splitChar_append_sep (sep : Char) (s rest : List Char) (h : sep ∉ s) :
    splitChar sep (s ++ sep :: rest) = s :: splitChar sep rest := by
  induction s with
  | nil => simp [splitChar]
  | cons c cs ih =>
    have hc : ¬c = sep := fun hh => h (hh ▸ List.mem_cons_self c cs)
    have hcs : sep ∉ cs := fun hh => h (List.mem_cons_of_mem c hh)
    show splitChar sep (c :: (cs ++ sep :: rest)) = (c :: cs) :: splitChar sep rest
    simp only [splitChar, if_neg hc]
    rw [ih hcs]

/-- C5 (amended): `parse ∘ format` is the identity on every address
accepted by `construct` whose service and name contain no `/`
character; when either part contains a `/`, formatting inserts
additional separators and re-parsing fails (see the counterexample). -/
theorem C5_roundtrip (s n : List Char) (hs : '/' ∉ s) (hn : '/' ∉ n)
    (g : GrpcMethod) (h : GrpcMethod.new s n = .ok g) :
    GrpcMethod.fromStr g.path = .ok g := by
  have hg : g = ⟨s, n⟩ := by
    simp only [GrpcMethod.new] at h
    split at h
    · cases h
    · split at h
      · cases h
      · cases h; rfl
  subst hg
  have hsplit : splitChar '/' (s ++ '/' :: n) = [s, n] := by
    rw [splitChar_append_sep '/' s n hs, splitChar_no_sep '/' n hn]
  simpa [GrpcMethod.path, GrpcMethod.fromStr, hsplit] using h

/-- C5 counterexample: `construct` accepts a service containing `/`
(its last dot-segment starts uppercase), but formatting then re-parsing
the resulting address fails instead of returning the address, so the
round-trip law as stated does not hold for every accepted pair. -/
theorem C5_roundtrip_counterexample :
    GrpcMethod.new ("A/B".toList) ("C".toList)
        = .ok ⟨"A/B".toList, "C".toList⟩ ∧
    GrpcMethod.fromStr (GrpcMethod.path ⟨"A/B".toList, "C".toList⟩)
        ≠ .ok ⟨"A/B".toList, "C".toList⟩ := by
  decide

/-- C5 witness: the round-trip law at the concrete slash-free address
`Pkg.Service` / `Method`. -/
theorem C5_roundtrip_witness :
    GrpcMethod.fromStr (GrpcMethod.path ⟨"Pkg.Service".toList, "Method".toList⟩)
      = .ok ⟨"Pkg.Service".toList, "Method".toList⟩ :=
  C5_roundtrip ("Pkg.Service".toList) ("Method".toList) (by decide) (by decide)
    ⟨"Pkg.Service".toList, "Method".toList⟩ (by decide)

/-- C6 (amended): `construct` fails with an `InvalidNaming` error iff
the last dot-separated segment of `service`, or `name`, is nonempty and
its first character is not uppercase; empty strings and empty last
segments have no first character and are accepted; on success the
stored fields equal the inputs, and the only errors produced are the
two naming errors. -/
theorem C6_naming_validation (s n : List Char) :
    ((GrpcMethod.new s n).isOk = false ↔
      headNotUpper ((splitChar '.' s).getLastD []) = true ∨ headNotUpper n = true) ∧
    (∀ t : List Char, headNotUpper t = true ↔
      ∃ c rest, t = c :: rest ∧ c.isUpper = false) ∧
    (∀ g, GrpcMethod.new s n = .ok g → g.service = s ∧ g.name = n) ∧
    (∀ e, GrpcMethod.new s n = .error e →
      e = .Invalid ("service should start with uppercase") ∨
      e = .Invalid ("name should start with uppercase")) := by
  refine ⟨?_, ?_, ?_, ?_⟩
  · by_cases h1 : headNotUpper ((splitChar '.' s).getLastD []) = true
    · simp only [GrpcMethod.new, if_pos h1]
      exact iff_of_true rfl (Or.inl h1)
    · by_cases h2 : headNotUpper n = true
      · simp only [GrpcMethod.new, if_neg h1, if_pos h2]
        exact iff_of_true rfl (Or.inr h2)
      · simp only [GrpcMethod.new, if_neg h1, if_neg h2]
        refine iff_of_false (by simp [Except.isOk, Except.toBool]) ?_
        rintro (h | h)
        · exact h1 h
        · exact h2 h
  · intro t
    cases t with
    | nil => simp [headNotUpper]
    | cons c rest =>
      simp only [headNotUpper, List.head?_cons, Bool.not_eq_true']
      constructor
      · intro h
        exact ⟨c, rest, rfl, h⟩
      · rintro ⟨c', rest', heq, h⟩
        cases heq
        exact h
  · intro g h
    simp only [GrpcMethod.new] at h
    split at h
    · cases h
    · split at h
      · cases h
      · cases h
        exact ⟨rfl, rfl⟩
  · intro e h
    simp only [GrpcMethod.new] at h
    split at h
    · cases h
      exact Or.inl rfl
    · split at h
      · cases h
        exact Or.inr rfl
      · cases h

/-- C6 counterexample: at service `"Svc"` and the empty name, the code
accepts (an empty name has no first character to check) although the
empty name does not start with an uppercase letter, so the claimed
"fails iff does not start with an uppercase letter" equivalence is
false at this input. -/
theorem C6_naming_validation_counterexample :
    ¬(((GrpcMethod.new ("Svc".toList) []).isOk = false) ↔
      (claimStartsUpper ((splitChar '.' ("Svc".toList)).getLastD []) = false ∨
        claimStartsUpper [] = false)) := by
  decide

/-- C6 witness: both spec examples — a lowercase final service segment
and a lowercase method name are rejected with the corresponding naming
errors, and a valid pair is stored verbatim. -/
theorem C6_naming_validation_witness :
    ((GrpcMethod.new ("lowercase.service".toList) ("Method".toList)).isOk = false) ∧
    ((GrpcMethod.new ("Pkg.Service".toList) ("method".toList)).isOk = false) ∧
    (∀ g, GrpcMethod.new ("Pkg.Service".toList) ("Method".toList) = .ok g →
      g.service = "Pkg.Service".toList ∧ g.name = "Method".toList) := by
  refine ⟨?_, ?_, (C6_naming_validation ("Pkg.Service".toList) ("Method".toList)).2.2.1⟩
  · exact (C6_naming_validation ("lowercase.service".toList) ("Method".toList)).1.mpr
      (Or.inl (by decide))
  · exact (C6_naming_validation ("Pkg.Service".toList) ("method".toList)).1.mpr
      (Or.inr (by decide))

/-- C7 (amended): parsing strips one optional leading `/`, splits on
`/`, and succeeds exactly on a two-segment split: any other segment
count fails with the malformed-address error, and a two-segment split
(segments may be empty — emptiness is not checked here) delegates to
`construct`'s naming validation. -/
theorem C7_parse_shape (p : List Char) :
    ((splitChar '/' (if p.head? = some '/' then p.tail else p)).length ≠ 2 →
      GrpcMethod.fromStr p
        = .error (.Invalid ("path should be formatted `<service>/<name>`"))) ∧
    ((splitChar '/' (if p.head? = some '/' then p.tail else p)).length = 2 →
      GrpcMethod.fromStr p
        = GrpcMethod.new
            ((splitChar '/' (if p.head? = some '/' then p.tail else p)).getD 0 [])
            ((splitChar '/' (if p.head? = some '/' then p.tail else p)).getD 1 [])) := by
  constructor
  · intro h
    simp [GrpcMethod.fromStr, h]
  · intro h
    simp [GrpcMethod.fromStr, h]

/-- C7 counterexample: `parse "/Svc/"` splits into the two segments
`"Svc"` and `""`; although the name segment is empty the parse succeeds
(returning the address with an empty name) instead of failing with a
`MalformedAddress` error as the claim requires. -/
theorem C7_parse_shape_counterexample :
    GrpcMethod.fromStr ("/Svc/".toList) = .ok ⟨"Svc".toList, []⟩ ∧
    (splitChar '/' ("Svc/".toList)).getD 1 [] = [] := by
  decide

/-- C7 witness: a three-segment path fails with the malformed-address
error, and the two-segment path `Svc/Method` (no leading slash)
delegates to `construct`. -/
theorem C7_parse_shape_witness :
    GrpcMethod.fromStr ("a/b/c".toList)
        = .error (.Invalid ("path should be formatted `<service>/<name>`")) ∧
    GrpcMethod.fromStr ("Svc/Method".toList)
        = GrpcMethod.new ("Svc".toList) ("Method".toList) := by
  constructor
  · exact (C7_parse_shape ("a/b/c".toList)).1 (by decide)
  · have h := (C7_parse_shape ("Svc/Method".toList)).2 (by decide)
    simpa using h

/-- C8: for every payload whose length fits the protocol's 4-byte
length field (`len < 2^32`, presupposed by "the big-endian 4-byte
encoding of len"), the encoded frame has length `5 + len(payload)`, its
first byte is `0`, its bytes 1 through 4 are four byte values whose
big-endian reading is exactly `len(payload)`, and the remaining bytes
are the payload unchanged. -/
theorem C8_frame_encoding (p : List Nat) (h : p.length < 4294967296) :
    (toBytes p).length = 5 + p.length ∧
    (toBytes p).head? = some 0 ∧
    (toBytes p).drop 5 = p ∧
    ((toBytes p).take 5).drop 1 = u32be p.length ∧
    (∀ b ∈ u32be p.length, b < 256) ∧
    16777216 * (u32be p.length).getD 0 0 + 65536 * (u32be p.length).getD 1 0 +
        256 * (u32be p.length).getD 2 0 + (u32be p.length).getD 3 0 = p.length := by
  have hmod : p.length % 4294967296 = p.length := Nat.mod_eq_of_lt h
  refine ⟨?_, ?_, ?_, ?_, ?_, ?_⟩
  · simp [toBytes, u32be]
    omega
  · rfl
  · simp [toBytes, u32be]
  · simp [toBytes, u32be, hmod]
  · intro b hb
    simp only [u32be, List.mem_cons, List.not_mem_nil, or_false] at hb
    rcases hb with rfl | rfl | rfl | rfl <;> omega
  · simp only [u32be, List.getD_cons_zero, List.getD_cons_succ]
    omega

/-- C8 witness: the frame for the one-byte payload `[7]`. -/
theorem C8_frame_encoding_witness :
    (toBytes [7]).length = 5 + ([7] : List Nat).length ∧
    (toBytes [7]).head? = some 0 ∧
    (toBytes [7]).drop 5 = [7] ∧
    ((toBytes [7]).take 5).drop 1 = u32be ([7] : List Nat).length ∧
    (∀ b ∈ u32be ([7] : List Nat).length, b < 256) ∧
    16777216 * (u32be ([7] : List Nat).length).getD 0 0 +
        65536 * (u32be ([7] : List Nat).length).getD 1 0 +
        256 * (u32be ([7] : List Nat).length).getD 2 0 +
        (u32be ([7] : List Nat).length).getD 3 0 = ([7] : List Nat).length :=
  C8_frame_encoding [7] (by decide)

/-- C9: server construction fails exactly when some registered method
address's service differs from the declared service name; on failure
the error is the service-mismatch error and control never reaches the
port allocation (second component `false`: no port probed or bound, so
no listener is started); and request handling reads only the shared
mock set, never the declared name, so the violation cannot surface at
request time. -/
theorem C9_service_mismatch_rejected (name : List Char) (mocks : MockSet) (port : Nat) :
    (((MockServer.new name mocks port).1.isOk = false) ↔
      ∃ e ∈ mocks.entries, e.1.service ≠ name) ∧
    ((MockServer.new name mocks port).1.isOk = false →
      MockServer.new name mocks port
        = (.error (.Invalid ("all mocks must be for `" ++ String.mk name ++ "` service")),
            false)) ∧
    (∀ (srv1 srv2 : MockServerModel) (path : List Char)
        (bodyRead : Except Unit (List (List Nat))),
      srv1.state = srv2.state →
      MockServer.handle srv1 path bodyRead = MockServer.handle srv2 path bodyRead) := by
  refine ⟨?_, ?_, ?_⟩
  · by_cases hAny : mocks.entries.any (fun e => e.1.service ≠ name) = true
    · exact iff_of_true (by simp only [MockServer.new, if_pos hAny]; rfl)
        (by simpa using hAny)
    · exact iff_of_false
        (by simp only [MockServer.new, if_neg hAny]; simp [Except.isOk, Except.toBool])
        (by simpa using hAny)
  · intro h
    by_cases hAny : mocks.entries.any (fun e => e.1.service ≠ name) = true
    · simp only [MockServer.new, if_pos hAny]
    · simp only [MockServer.new, if_neg hAny] at h
      simp [Except.isOk, Except.toBool] at h
  · intro srv1 srv2 path bodyRead h
    obtain ⟨n1, p1, st1⟩ := srv1
    obtain ⟨n2, p2, st2⟩ := srv2
    simp only at h
    subst h
    rfl

/-- C9 witness: a registry whose only key names service `B` makes
construction of a server declared for service `A` return the mismatch
error without reaching port allocation. -/
theorem C9_service_mismatch_rejected_witness :
    MockServer.new ("A".toList) ⟨[(⟨"B".toList, "M".toList⟩, [])]⟩ 0
      = (.error (.Invalid ("all mocks must be for `" ++ String.mk ("A".toList) ++ "` service")),
          false) :=
  (C9_service_mismatch_rejected ("A".toList) ⟨[(⟨"B".toList, "M".toList⟩, [])]⟩ 0).2.1
    (by decide)

/-- C3: every dispatched response has transport-level HTTP status 200;
on a match the `grpc-status` header is `httpToGrpc` of the fixture's
declared HTTP status, a `grpc-message` header carries the fixture's
error text exactly when one is set, and the body frames are the stored
(framed-at-construction) response body — for bodies built by the
fixture constructors those frames are precisely the framed encoding of
the declared payloads; on no match the response is `grpc-status`
`NotFound` (5) with an empty body and no `grpc-message`. -/
theorem C3_response_synthesis (srv : MockServerModel) (path : List Char)
    (frames : List (List Nat)) (method : GrpcMethod)
    (hparse : GrpcMethod.fromStr path = .ok method) :
    (∀ mock, srv.state.find method (collectBody frames) = some mock →
      ∃ resp, MockServer.handle srv path (.ok frames) = some resp ∧
        resp.httpStatus = 200 ∧
        ("grpc-status", toString (Code.fromHttp mock.response.code).toI32) ∈ resp.headers ∧
        (∀ e, mock.response.error = some e → ("grpc-message", e) ∈ resp.headers) ∧
        (mock.response.error = none → ∀ v, ("grpc-message", v) ∉ resp.headers) ∧
        resp.body = mock.response.body.toBoxed) ∧
    (srv.state.find method (collectBody frames) = none →
      MockServer.handle srv path (.ok frames) = some (grpcResponse .NotFound [] none) ∧
      (grpcResponse .NotFound [] none).httpStatus = 200 ∧
      ("grpc-status", toString Code.NotFound.toI32) ∈ (grpcResponse .NotFound [] none).headers ∧
      toString Code.NotFound.toI32 = "5" ∧
      (grpcResponse .NotFound [] none).body = [] ∧
      ∀ v, ("grpc-message", v) ∉ (grpcResponse .NotFound [] none).headers) ∧
    (MockBody.Empty.toBoxed = [] ∧
      (∀ p : List Nat, (MockBody.Full (toBytes p)).toBoxed = [toBytes p]) ∧
      (∀ ps : List (List Nat),
        (MockBody.Stream (ps.map toBytes)).toBoxed = ps.map toBytes)) := by
  refine ⟨?_, ?_, rfl, fun p => rfl, fun ps => rfl⟩
  · intro mock hfind
    refine ⟨grpcResponse (Code.fromHttp mock.response.code) mock.response.body.toBoxed
      mock.response.error, ?_, rfl, ?_, ?_, ?_, rfl⟩
    · simp only [MockServer.handle, hparse, hfind]
    · simp [grpcResponse]
    · intro e he
      simp [grpcResponse, he]
    · intro he v
      simp [grpcResponse, he]
  · intro hfind
    refine ⟨?_, rfl, by simp [grpcResponse], by decide, rfl, ?_⟩
    · simp only [MockServer.handle, hparse, hfind]
    · intro v
      simp [grpcResponse]

/-- C3 witness: a fixture with response status `404` and error
`"model not found"` is served with `grpc-status` header value `"5"` and
a `grpc-message: model not found` header, and a non-matching request to
the same registry draws the synthesized `NotFound` response. -/
theorem C3_response_synthesis_witness :
    (∃ resp,
      MockServer.handle
          ⟨"Svc".toList, 0,
            ⟨[(⟨"Svc".toList, "M".toList⟩,
              [(Mock.unary [1] [2]).withCode 404 |>.withError ("model not found")])]⟩⟩
          ("/Svc/M".toList) (.ok [toBytes [1]]) = some resp ∧
        resp.httpStatus = 200 ∧
        ("grpc-status",
          toString (Code.fromHttp ((Mock.unary [1] [2]).withCode 404 |>.withError
            ("model not found")).response.code).toI32) ∈ resp.headers ∧
        ("grpc-message", "model not found") ∈ resp.headers) ∧
    toString (Code.fromHttp 404).toI32 = "5" := by
  refine ⟨?_, by decide⟩
  obtain ⟨resp, h1, h2, h3, h4, -, -⟩ :=
    (C3_response_synthesis
      ⟨"Svc".toList, 0,
        ⟨[(⟨"Svc".toList, "M".toList⟩,
          [(Mock.unary [1] [2]).withCode 404 |>.withError ("model not found")])]⟩⟩
      ("/Svc/M".toList) [toBytes [1]] ⟨"Svc".toList, "M".toList⟩ (by decide)).1
      ((Mock.unary [1] [2]).withCode 404 |>.withError ("model not found")) (by decide)
  exact ⟨resp, h1, h2, h3, h4 ("model not found") rfl⟩

/-- C4 (amended): for every inbound request whose path parses as a
method address and whose body is read successfully, dispatch always
produces a response, and that response is either a matched fixture's
synthesized response or the synthesized `NotFound` response.  (As the
counterexample shows, a request whose path does not parse, or whose
body read fails, panics the handler task instead — modelled as `none`.) -/
theorem C4_dispatch_outcomes (srv : MockServerModel) (path : List Char)
    (frames : List (List Nat)) (method : GrpcMethod)
    (hparse : GrpcMethod.fromStr path = .ok method) :
    ∃ resp, MockServer.handle srv path (.ok frames) = some resp ∧
      ((∃ mock, srv.state.find method (collectBody frames) = some mock ∧
          resp = grpcResponse (Code.fromHttp mock.response.code)
            mock.response.body.toBoxed mock.response.error) ∨
        (srv.state.find method (collectBody frames) = none ∧
          resp = grpcResponse .NotFound [] none)) := by
  cases hfind : srv.state.find method (collectBody frames) with
  | some mock =>
    refine ⟨_, ?_, Or.inl ⟨mock, rfl, rfl⟩⟩
    simp only [MockServer.handle, hparse, hfind]
  | none =>
    refine ⟨_, ?_, Or.inr ⟨rfl, rfl⟩⟩
    simp only [MockServer.handle, hparse, hfind]

/-- C4 counterexample: a request whose path is not a well-formed method
address (here `"abc"`, a one-segment path), and a request whose body
read fails, both panic the handler task (`none`) instead of producing a
gRPC response, so the claim's universal no-panic guarantee fails. -/
theorem C4_dispatch_outcomes_counterexample :
    MockServer.handle ⟨"S".toList, 0, MockSet.new⟩ ("abc".toList) (.ok []) = none ∧
    MockServer.handle ⟨"S".toList, 0, MockSet.new⟩ ("/S/M".toList) (.error ()) = none := by
  decide

/-- C4 witness: on an empty registry, a parseable request draws the
synthesized `NotFound` response. -/
theorem C4_dispatch_outcomes_witness :
    ∃ resp, MockServer.handle ⟨"S".toList, 0, MockSet.new⟩ ("/S/M".toList) (.ok []) = some resp ∧
      ((∃ mock, MockSet.find MockSet.new ⟨"S".toList, "M".toList⟩ (collectBody []) = some mock ∧
          resp = grpcResponse (Code.fromHttp mock.response.code)
            mock.response.body.toBoxed mock.response.error) ∨
        (MockSet.find MockSet.new ⟨"S".toList, "M".toList⟩ (collectBody []) = none ∧
          resp = grpcResponse .NotFound [] none)) :=
  C4_dispatch_outcomes ⟨"S".toList, 0, MockSet.new⟩ ("/S/M".toList) []
    ⟨"S".toList, "M".toList⟩ (by decide)

end Grpcmock
